import Mathlib

/-!
# sacc: a key-value chaincode with IPFS attachments

A shallow embedding of `src/sacc.go` and theorems about it.

Modelling conventions.

* A Go `string` and a Go `[]byte` are both modelled by a Lean `String`; the
  conversions `[]byte(s)` and `string(b)` are the identity.  A `nil` byte
  slice is `none`.  The delimiter `|` is one ASCII byte, so cutting a text at
  it gives the same fields whether the text is read as bytes or as characters.
* A Go `error` is `Option String`: `none` is `nil`, `some msg` is an error
  whose `Error()` text is `msg`.
* A Go function returning `(string, error)` returns a pair here, with the
  same first component the source returns next to an error.
* Everything outside the chaincode (the ledger behind the stub, the local
  file system, the IPFS shell) is a field of `World`.  The calls made to
  these collaborators are recorded, in order, in `World.calls`.
* The ledger follows the stub the chaincode is built against: a successful
  `PutState` of an empty value deletes the key, so `GetState` then returns a
  nil value.
* `logger.*` and `fmt.Printf`/`fmt.Println` lines only print; they are left
  out.
-/

namespace Sacc

/-- Go `error`: `none` is `nil`. -/
abbrev GoError := Option String

/-- Result of running Go code that may panic. -/
inductive Outcome (α : Type) where
  | ret (a : α)
  | panic (msg : String)
  deriving DecidableEq, Repr

/-- The text of the runtime panic raised by a method call on a nil interface. -/
def nilDeref : String :=
  "runtime error: invalid memory address or nil pointer dereference"

/-- Method call `err.Error()`; on a nil interface value it panics. -/
def GoError.Error : GoError → Outcome String
  | some msg => .ret msg
  | none => .panic nilDeref

/-- Response of the chaincode to the peer (`peer.Response`). -/
structure Response where
  Status : Nat
  Message : String
  Payload : Option String
  deriving DecidableEq, Repr

/-- Library call `shim.Success(payload)`. -/
def shim.Success (payload : Option String) : Response :=
  { Status := 200, Message := "", Payload := payload }

/-- Library call `shim.Error(msg)`. -/
def shim.Error (msg : String) : Response :=
  { Status := 500, Message := msg, Payload := none }

/-- An open file, as `RetrieveROM` uses it. -/
structure File where
  /-- Outcome of `file.Stat()`: the size, or an error. -/
  Stat : Except String Nat
  /-- Outcome of `bufr.Read(bytes)` on a buffer of the given size: the buffer
  afterwards and the error returned. -/
  Read : Nat → String × GoError

/-- A call made to a collaborator. -/
inductive Call where
  | PutState (key value : String)
  | Open (filename : String)
  | Add (url content : String)
  | Cat (url mhash : String)
  deriving DecidableEq, Repr

/-- The chaincode stub together with the process environment. -/
structure World where
  /-- Arguments of the transaction proposal, `stub.GetStringArgs()`. -/
  args : List String
  /-- The ledger: what `stub.GetState(key)` returns, `(value, err)`; the value
  `none` is a nil slice (no entry). -/
  ledger : String → Option String × GoError
  /-- Whether `stub.PutState(key, value)` fails, and with which error. -/
  putErr : String → String → GoError
  /-- Outcome of `os.Open(filename)`. -/
  osOpen : String → Except String File
  /-- Outcome of `shell.Add(content)` on the shell for the given url. -/
  shellAdd : String → String → String × GoError
  /-- Outcome of `shell.Cat(mhash)` on the shell for the given url, with the
  reader drained: the content, or an error. -/
  shellCat : String → String → Except String String
  /-- Calls made so far, oldest first. -/
  calls : List Call

/-- Stub method `stub.GetStringArgs()`. -/
def GetStringArgs (w : World) : List String := w.args

/-- Stub method `stub.GetFunctionAndParameters()`: the first argument is the
function name, the rest are its parameters. -/
def GetFunctionAndParameters (w : World) : String × List String :=
  match GetStringArgs w with
  | [] => ("", [])
  | function :: params => (function, params)

/-- Stub method `stub.GetState(key)`. -/
def GetState (w : World) (key : String) : Option String × GoError :=
  w.ledger key

/-- Stub method `stub.PutState(key, value)`.  A successful write of a
non-empty value makes it the entry for `key`; a successful write of an empty
value is a delete and leaves no entry for `key`.  Every other entry is as
before. -/
def PutState (w : World) (key value : String) : GoError × World :=
  let w1 := { w with calls := w.calls ++ [Call.PutState key value] }
  match w.putErr key value with
  | some e => (some e, w1)
  | none =>
    (none, { w1 with
      ledger := fun k =>
        if k = key then (if value = "" then (none, none) else (some value, none))
        else w.ledger k })

/-- Fields of a line of text cut at each occurrence of `sep`. -/
def splitChars (sep : Char) : List Char → List (List Char)
  | [] => [[]]
  | c :: cs =>
    if c = sep then [] :: splitChars sep cs
    else
      match splitChars sep cs with
      | [] => [[c]]
      | f :: fs => (c :: f) :: fs

/-- Library call `strings.Split(s, sep)` for a one-character separator. -/
def Split (s : String) (sep : Char) : List String :=
  (splitChars sep s.data).map String.mk

/-- Function `RetrieveROM`: loads the data of a file into memory. -/
def RetrieveROM (w : World) (filename : String) : (Option String × GoError) × World :=
  let w1 := { w with calls := w.calls ++ [Call.Open filename] }
  match w.osOpen filename with
  | .error err => ((none, some err), w1)
  | .ok file =>
    match file.Stat with
    | .error statsErr => ((none, some statsErr), w1)
    | .ok size =>
      let (bytes, err) := file.Read size
      ((some bytes, err), w1)

/-- Function `AddIpfs`: reads the file and adds its content to IPFS. -/
def AddIpfs (w : World) (Ip Port filename : String) : (String × GoError) × World :=
  let UrlPort := Ip ++ ":" ++ Port
  let ((bytedata, err), w1) := RetrieveROM w filename
  match err with
  | some e => ((filename, some e), w1)
  | none =>
    let s := bytedata.getD ""
    let w2 := { w1 with calls := w1.calls ++ [Call.Add UrlPort s] }
    match w1.shellAdd UrlPort s with
    | (_, some e) => ((filename, some e), w2)
    | (mhash, none) => ((mhash, none), w2)

/-- Function `CatIpfs`: fetches the content stored under a hash. -/
def CatIpfs (w : World) (Ip Port mhash : String) : (String × GoError) × World :=
  let UrlPort := Ip ++ ":" ++ Port
  let w1 := { w with calls := w.calls ++ [Call.Cat UrlPort mhash] }
  match w.shellCat UrlPort mhash with
  | .error e => ((mhash, some e), w1)
  | .ok str_buf => ((str_buf, none), w1)

/-- Function `set`: stores the asset (key and value) on the ledger. -/
def set (w : World) (args : List String) : (String × GoError) × World :=
  match args with
  | [key, value] =>
    match PutState w key value with
    | (some _, w1) => (("", some ("Failed to set asset: " ++ key)), w1)
    | (none, w1) => ((value, none), w1)
  | _ => (("", some "Incorrect arguments. Expecting a key and a value"), w)

/-- Function `get`: returns the value of the specified asset key. -/
def get (w : World) (args : List String) : (String × GoError) × World :=
  match args with
  | [key] =>
    match GetState w key with
    | (_, some err) =>
      (("", some ("Failed to get asset: " ++ key ++ " with error: " ++ err)), w)
    | (none, none) => (("", some ("Asset not found: " ++ key)), w)
    | (some value, none) => ((value, none), w)
  | _ => (("", some "Incorrect arguments. Expecting a key"), w)

/-- The local variables the decoding loops assign. -/
structure Fields where
  sender : String
  receiver : String
  filename : String
  mhash : String
  deriving DecidableEq, Repr

/-- The loop of `set_addipfs` over the split value, from index `i` on. -/
def rangeLoop3 : Nat → List String → Fields → Fields
  | _, [], v => v
  | i, str_Slice :: rest, v =>
    rangeLoop3 (i + 1) rest
      (if i = 0 then { v with sender := str_Slice }
       else if i = 1 then { v with receiver := str_Slice }
       else if i = 2 then { v with filename := str_Slice }
       else v)

/-- The loop of `get_catipfs` over the split value, from index `i` on. -/
def rangeLoop4 : Nat → List String → Fields → Fields
  | _, [], v => v
  | i, str_Slice :: rest, v =>
    rangeLoop4 (i + 1) rest
      (if i = 0 then { v with sender := str_Slice }
       else if i = 1 then { v with receiver := str_Slice }
       else if i = 2 then { v with filename := str_Slice }
       else if i = 3 then { v with mhash := str_Slice }
       else v)

/-- The zero values of the loop variables. -/
def Fields.zero : Fields := { sender := "", receiver := "", filename := "", mhash := "" }

/-- The error text both IPFS operations return when the IPFS call fails. -/
def ipfsFailed : String := "\x7b\"Error\":\"Failed to add to IPFS\"\x7d"

/-- Function `set_addipfs`: adds the named file to IPFS and stores the value
with the hash appended. -/
def set_addipfs (w : World) (args : List String) : (String × GoError) × World :=
  match args with
  | [key, value] =>
    let str_Slice := Split value '|'
    let v := rangeLoop3 0 str_Slice Fields.zero
    match AddIpfs w "ipfs0" "5001" v.filename with
    | ((_, some _), w1) => (("", some ipfsFailed), w1)
    | ((mhash, none), w1) =>
      let value := value ++ "|" ++ mhash
      match PutState w1 key value with
      | (some _, w2) => (("", some ("Failed to set asset: " ++ key)), w2)
      | (none, w2) => ((key, none), w2)
  | _ => (("", some "Incorrect arguments. Expecting filename"), w)

/-- Function `get_catipfs`: reads the stored value and fetches the content
named by its fourth field. -/
def get_catipfs (w : World) (args : List String) : (String × GoError) × World :=
  match args with
  | [key] =>
    match GetState w key with
    | (_, some err) =>
      (("", some ("Failed to get asset: " ++ key ++ " with error: " ++ err)), w)
    | (none, none) => (("", some ("Asset not found: " ++ key)), w)
    | (some value, none) =>
      let str_Slice := Split value '|'
      let v := rangeLoop4 0 str_Slice Fields.zero
      match CatIpfs w "ipfs0" "5001" v.mhash with
      | ((_, some _), w1) => (("", some ipfsFailed), w1)
      | ((_, none), w1) => ((v.mhash, none), w1)
  | _ => (("", some "Incorrect arguments. Expecting document number."), w)

/-- Method `SimpleAsset.Init`: called when the chaincode is instantiated. -/
def Init (w : World) : Response × World :=
  match GetStringArgs w with
  | [key, value] =>
    match PutState w key value with
    | (some _, w1) => (shim.Error ("Failed to create asset: " ++ key), w1)
    | (none, w1) => (shim.Success none, w1)
  | _ => (shim.Error "Incorrect arguments. Expecting a key and a value", w)

/-- The end of `Invoke`, after an operation has returned `result, err`. -/
def respond (r : (String × GoError) × World) : Outcome Response × World :=
  match r with
  | ((_, some msg), w1) => (.ret (shim.Error msg), w1)
  | ((result, none), w1) => (.ret (shim.Success (some result)), w1)

/-- Method `SimpleAsset.Invoke`: called per transaction on the chaincode. -/
def Invoke (w : World) : Outcome Response × World :=
  let (fn, args) := GetFunctionAndParameters w
  let err : GoError := none
  if fn = "set" then respond (set w args)
  else if fn = "get" then respond (get w args)
  else if fn = "set_addipfs" then respond (set_addipfs w args)
  else if fn = "get_catipfs" then respond (get_catipfs w args)
  else
    match err.Error with
    | .panic msg => (.panic msg, w)
    | .ret msg => (.ret (shim.Error msg), w)

/-- A small world for concrete runs: an empty ledger whose writes succeed, one
local file `report.txt` holding `abc`, and an IPFS node that stores `abc`
under the hash `Qm123`. -/
def demoWorld : World where
  args := []
  ledger := fun _ => (none, none)
  putErr := fun _ _ => none
  osOpen := fun filename =>
    if filename = "report.txt" then
      .ok { Stat := .ok 3, Read := fun _ => ("abc", none) }
    else .error ("open " ++ filename ++ ": no such file or directory")
  shellAdd := fun _ content =>
    if content = "abc" then ("Qm123", none) else ("", some "add: node unreachable")
  shellCat := fun _ mhash =>
    if mhash = "Qm123" then .ok "abc" else .error "cat: invalid path"
  calls := []

/-! ## Splitting -/

theorem splitChars_ne_nil (sep : Char) (l : List Char) : splitChars sep l ≠ [] := by
  cases l with
  | nil => simp [splitChars]
  | cons c cs =>
    unfold splitChars
    split
    · simp
    · split <;> simp

theorem splitChars_append_sep (sep : Char) (a b : List Char) :
    splitChars sep (a ++ sep :: b) = splitChars sep a ++ splitChars sep b := by
  induction a with
  | nil => simp [splitChars]
  | cons c cs ih =>
    by_cases hc : c = sep
    · simp [splitChars, hc, ih]
    · have hne := splitChars_ne_nil sep cs
      cases hcs : splitChars sep cs with
      | nil => exact absurd hcs hne
      | cons f fs => simp [splitChars, hc, ih, hcs]

theorem splitChars_of_not_mem (sep : Char) (a : List Char) (h : sep ∉ a) :
    splitChars sep a = [a] := by
  induction a with
  | nil => simp [splitChars]
  | cons c cs ih =>
    have hc : ¬ c = sep := fun e => h (by simp [e])
    have hcs : sep ∉ cs := fun e => h (by simp [e])
    simp [splitChars, hc, ih hcs]

theorem Split_append_sep (a b : String) :
    Split (a ++ "|" ++ b) '|' = Split a '|' ++ Split b '|' := by
  have h : (a ++ "|" ++ b).data = a.data ++ '|' :: b.data := by
    simp [String.data_append]
  simp [Split, h, splitChars_append_sep]

theorem Split_of_not_mem (a : String) (h : '|' ∉ a.data) : Split a '|' = [a] := by
  simp [Split, splitChars_of_not_mem _ _ h]

/-! ## The decoding loops -/

theorem rangeLoop3_done (i : Nat) (l : List String) (v : Fields) (h : 3 ≤ i) :
    rangeLoop3 i l v = v := by
  induction l generalizing i with
  | nil => rfl
  | cons x xs ih =>
    have h0 : ¬ i = 0 := by omega
    have h1 : ¬ i = 1 := by omega
    have h2 : ¬ i = 2 := by omega
    simp [rangeLoop3, h0, h1, h2, ih (i + 1) (by omega)]

theorem rangeLoop4_done (i : Nat) (l : List String) (v : Fields) (h : 4 ≤ i) :
    rangeLoop4 i l v = v := by
  induction l generalizing i with
  | nil => rfl
  | cons x xs ih =>
    have h0 : ¬ i = 0 := by omega
    have h1 : ¬ i = 1 := by omega
    have h2 : ¬ i = 2 := by omega
    have h3 : ¬ i = 3 := by omega
    simp [rangeLoop4, h0, h1, h2, h3, ih (i + 1) (by omega)]

/-- The file name `set_addipfs` uploads is the third field, or empty. -/
theorem rangeLoop3_filename (l : List String) :
    (rangeLoop3 0 l Fields.zero).filename = l.getD 2 "" := by
  match l with
  | [] => rfl
  | [_] => rfl
  | [_, _] => rfl
  | _ :: _ :: _ :: rest => simp [rangeLoop3, rangeLoop3_done]

/-- The hash `get_catipfs` fetches is the fourth field, or empty. -/
theorem rangeLoop4_mhash (l : List String) :
    (rangeLoop4 0 l Fields.zero).mhash = l.getD 3 "" := by
  match l with
  | [] => rfl
  | [_] => rfl
  | [_, _] => rfl
  | [_, _, _] => rfl
  | _ :: _ :: _ :: _ :: rest => simp [rangeLoop4, rangeLoop4_done]

/-! ## Helper facts about the operations -/

theorem PutState_ok (w : World) (key value : String) (h : w.putErr key value = none) :
    PutState w key value =
      (none, { w with
        calls := w.calls ++ [Call.PutState key value]
        ledger := fun k =>
          if k = key then (if value = "" then (none, none) else (some value, none))
          else w.ledger k }) := by
  simp [PutState, h]

theorem set_bad_args (w : World) (args : List String) (h : args.length ≠ 2) :
    set w args = (("", some "Incorrect arguments. Expecting a key and a value"), w) := by
  unfold set
  split
  · simp at h
  · rfl

theorem get_bad_args (w : World) (args : List String) (h : args.length ≠ 1) :
    get w args = (("", some "Incorrect arguments. Expecting a key"), w) := by
  unfold get
  split
  · simp at h
  · rfl

theorem set_addipfs_bad_args (w : World) (args : List String) (h : args.length ≠ 2) :
    set_addipfs w args = (("", some "Incorrect arguments. Expecting filename"), w) := by
  unfold set_addipfs
  split
  · simp at h
  · rfl

theorem get_catipfs_bad_args (w : World) (args : List String) (h : args.length ≠ 1) :
    get_catipfs w args =
      (("", some "Incorrect arguments. Expecting document number."), w) := by
  unfold get_catipfs
  split
  · simp at h
  · rfl

theorem get_of_entry (w : World) (k v : String) (h : w.ledger k = (some v, none)) :
    get w [k] = ((v, none), w) := by
  simp [get, GetState, h]

theorem RetrieveROM_world (w : World) (filename : String) :
    (RetrieveROM w filename).2 = { w with calls := w.calls ++ [Call.Open filename] } := by
  unfold RetrieveROM
  rcases h1 : w.osOpen filename with e | file
  · rfl
  · rcases h2 : file.Stat with e | size
    · simp only [h2]
    · simp only [h2]

theorem AddIpfs_frame (w : World) (Ip Port filename : String) :
    (AddIpfs w Ip Port filename).2.ledger = w.ledger ∧
      (AddIpfs w Ip Port filename).2.putErr = w.putErr ∧
      ∃ extra, (AddIpfs w Ip Port filename).2.calls = w.calls ++ extra ∧
        ∀ key value, Call.PutState key value ∉ extra := by
  unfold AddIpfs
  have hw := RetrieveROM_world w filename
  rcases hR : RetrieveROM w filename with ⟨⟨bd, e⟩, w1⟩
  rw [hR] at hw
  simp only at hw
  subst hw
  cases e with
  | some e => exact ⟨rfl, rfl, [Call.Open filename], rfl, by simp⟩
  | none =>
    rcases ha : w.shellAdd (Ip ++ ":" ++ Port) (bd.getD "") with ⟨m, _ | e⟩
    · refine ⟨?_, ?_, [Call.Open filename, Call.Add (Ip ++ ":" ++ Port) (bd.getD "")],
        ?_, ?_⟩ <;> simp [ha]
    · refine ⟨?_, ?_, [Call.Open filename, Call.Add (Ip ++ ":" ++ Port) (bd.getD "")],
        ?_, ?_⟩ <;> simp [ha]

theorem set_addipfs_eq (w : World) (key value : String) :
    set_addipfs w [key, value] =
      match AddIpfs w "ipfs0" "5001" ((Split value '|').getD 2 "") with
      | ((_, some _), w1) => (("", some ipfsFailed), w1)
      | ((mhash, none), w1) =>
        match PutState w1 key (value ++ "|" ++ mhash) with
        | (some _, w2) => (("", some ("Failed to set asset: " ++ key)), w2)
        | (none, w2) => ((key, none), w2) := by
  simp only [set_addipfs, rangeLoop3_filename]

theorem set_addipfs_upload_err (w : World) (key value : String)
    (hup : (AddIpfs w "ipfs0" "5001" ((Split value '|').getD 2 "")).1.2 ≠ none) :
    set_addipfs w [key, value] =
      (("", some ipfsFailed), (AddIpfs w "ipfs0" "5001" ((Split value '|').getD 2 "")).2) := by
  rw [set_addipfs_eq]
  rcases h : AddIpfs w "ipfs0" "5001" ((Split value '|').getD 2 "") with ⟨⟨m, _ | e⟩, w1⟩
  · rw [h] at hup
    exact absurd rfl hup
  · rfl

theorem set_addipfs_ok (w : World) (key value H : String)
    (hup : (AddIpfs w "ipfs0" "5001" ((Split value '|').getD 2 "")).1 = (H, none))
    (hput : w.putErr key (value ++ "|" ++ H) = none) :
    set_addipfs w [key, value] =
      ((key, none),
        (PutState (AddIpfs w "ipfs0" "5001" ((Split value '|').getD 2 "")).2 key
          (value ++ "|" ++ H)).2) := by
  rw [set_addipfs_eq]
  have hf := (AddIpfs_frame w "ipfs0" "5001" ((Split value '|').getD 2 "")).2.1
  rcases h : AddIpfs w "ipfs0" "5001" ((Split value '|').getD 2 "") with ⟨⟨m, e⟩, w1⟩
  rw [h] at hup hf
  simp only [Prod.mk.injEq] at hup
  obtain ⟨rfl, rfl⟩ := hup
  simp only at hf
  have hp : w1.putErr key (value ++ "|" ++ m) = none := by rw [hf]; exact hput
  simp [PutState_ok w1 key _ hp]

theorem set_addipfs_success (w : World) (key value H : String)
    (hup : (AddIpfs w "ipfs0" "5001" ((Split value '|').getD 2 "")).1 = (H, none))
    (hok : (set_addipfs w [key, value]).1.2 = none) :
    w.putErr key (value ++ "|" ++ H) = none := by
  cases hp : w.putErr key (value ++ "|" ++ H) with
  | none => rfl
  | some e =>
    exfalso
    rw [set_addipfs_eq] at hok
    have hf := (AddIpfs_frame w "ipfs0" "5001" ((Split value '|').getD 2 "")).2.1
    rcases h : AddIpfs w "ipfs0" "5001" ((Split value '|').getD 2 "") with ⟨⟨m, e'⟩, w1⟩
    rw [h] at hup hf hok
    simp only [Prod.mk.injEq] at hup
    obtain ⟨rfl, rfl⟩ := hup
    simp only at hf
    have hp1 : w1.putErr key (value ++ "|" ++ m) = some e := by rw [hf]; exact hp
    simp [PutState, hp1] at hok

theorem ledger_after_put (w : World) (key value : String) (h : w.putErr key value = none)
    (hne : value ≠ "") :
    (PutState w key value).2.ledger =
      fun k => if k = key then (some value, none) else w.ledger k := by
  rw [PutState_ok w key value h]
  simp [hne]

theorem append_sep_ne_empty (a b : String) : a ++ "|" ++ b ≠ "" := by
  intro h
  have hd := congrArg String.data h
  simp at hd

theorem Split_three (sender receiver filename : String) (hs : '|' ∉ sender.data)
    (hr : '|' ∉ receiver.data) (hf : '|' ∉ filename.data) :
    Split (sender ++ "|" ++ receiver ++ "|" ++ filename) '|' =
      [sender, receiver, filename] := by
  rw [Split_append_sep, Split_append_sep, Split_of_not_mem _ hs, Split_of_not_mem _ hr,
    Split_of_not_mem _ hf]
  rfl

theorem get_catipfs_eq (w : World) (key value : String)
    (h : w.ledger key = (some value, none)) :
    get_catipfs w [key] =
      match w.shellCat "ipfs0:5001" ((Split value '|').getD 3 "") with
      | .error _ =>
        (("", some ipfsFailed),
          { w with calls := w.calls ++ [Call.Cat "ipfs0:5001" ((Split value '|').getD 3 "")] })
      | .ok _ =>
        (((Split value '|').getD 3 "", none),
          { w with calls := w.calls ++ [Call.Cat "ipfs0:5001" ((Split value '|').getD 3 "")] }) := by
  have hu : ("ipfs0" : String) ++ ":" ++ "5001" = "ipfs0:5001" := by decide
  simp only [get_catipfs, GetState, h, rangeLoop4_mhash, CatIpfs, hu]
  cases w.shellCat "ipfs0:5001" ((Split value '|').getD 3 "") <;> rfl

theorem getD_of_length_le {α : Type} (l : List α) (n : Nat) (d : α) (h : l.length ≤ n) :
    l.getD n d = d := by
  simp [List.getD, List.getElem?_eq_none h]

/-! ## The claims -/

/-- Claim C1, counterexample: the value is empty.  On a ledger that holds
`old` under `doc1` and accepts the write, `set [doc1, ""]` returns the empty
value without error, but the write removes the entry, so the following
`get [doc1]` returns the not-found error instead of the value. -/
theorem set_empty_value_then_get :
    ({ demoWorld with ledger := fun _ => (some "old", none) } : World).putErr "doc1" ""
        = none ∧
      (set { demoWorld with ledger := fun _ => (some "old", none) } ["doc1", ""]).1
        = ("", none) ∧
      (get (set { demoWorld with ledger := fun _ => (some "old", none) }
        ["doc1", ""]).2 ["doc1"]).1 = ("", some "Asset not found: doc1") ∧
      (get (set { demoWorld with ledger := fun _ => (some "old", none) }
        ["doc1", ""]).2 ["doc1"]).1 ≠ ("", none) := by
  decide

/-- Claim C1, amended: when the ledger write succeeds, `set [k, v]` returns
`v`, and when `v` is not empty a following `get [k]` on the resulting ledger
returns exactly `v`, whatever the ledger held for `k` before. -/
theorem set_then_get (w : World) (k v : String) (hput : w.putErr k v = none)
    (w2 : World) (hw2 : w2.ledger = (set w [k, v]).2.ledger) :
    (set w [k, v]).1 = (v, none) ∧ (v ≠ "" → (get w2 [k]).1 = (v, none)) := by
  have hset : set w [k, v] = ((v, none), (PutState w k v).2) := by
    simp [set, PutState_ok w k v hput]
  refine ⟨by rw [hset], ?_⟩
  intro hv
  have hl : w2.ledger k = (some v, none) := by
    rw [hw2, hset, ledger_after_put w k v hput hv]
    simp
  rw [get_of_entry w2 k v hl]

theorem set_then_get_witness :
    (set { demoWorld with ledger := fun _ => (some "old", none) } ["doc1", "hello"]).1
        = ("hello", none) ∧
      (get (set { demoWorld with ledger := fun _ => (some "old", none) }
        ["doc1", "hello"]).2 ["doc1"]).1 = ("hello", none) :=
  have h := set_then_get { demoWorld with ledger := fun _ => (some "old", none) }
    "doc1" "hello" rfl _ rfl
  ⟨h.1, h.2 (by decide)⟩

/-- Claim C5: with a wrong number of arguments each of the four operations
returns its argument error and leaves the world as it was: the ledger is
unchanged and no call to the ledger, the file system or IPFS is made. -/
theorem bad_args_no_effect (w : World) (args : List String) :
    (args.length ≠ 2 →
      set w args = (("", some "Incorrect arguments. Expecting a key and a value"), w)) ∧
    (args.length ≠ 1 →
      get w args = (("", some "Incorrect arguments. Expecting a key"), w)) ∧
    (args.length ≠ 2 →
      set_addipfs w args = (("", some "Incorrect arguments. Expecting filename"), w)) ∧
    (args.length ≠ 1 →
      get_catipfs w args =
        (("", some "Incorrect arguments. Expecting document number."), w)) :=
  ⟨set_bad_args w args, get_bad_args w args, set_addipfs_bad_args w args,
    get_catipfs_bad_args w args⟩

theorem bad_args_no_effect_witness :
    set demoWorld ["a", "b", "c"]
        = (("", some "Incorrect arguments. Expecting a key and a value"), demoWorld) ∧
      get demoWorld ["a", "b", "c"]
        = (("", some "Incorrect arguments. Expecting a key"), demoWorld) ∧
      set_addipfs demoWorld ["a", "b", "c"]
        = (("", some "Incorrect arguments. Expecting filename"), demoWorld) ∧
      get_catipfs demoWorld ["a", "b", "c"]
        = (("", some "Incorrect arguments. Expecting document number."), demoWorld) :=
  ⟨(bad_args_no_effect demoWorld ["a", "b", "c"]).1 (by decide),
    (bad_args_no_effect demoWorld ["a", "b", "c"]).2.1 (by decide),
    (bad_args_no_effect demoWorld ["a", "b", "c"]).2.2.1 (by decide),
    (bad_args_no_effect demoWorld ["a", "b", "c"]).2.2.2 (by decide)⟩

/-- Claim C6: for a key with no ledger entry, `get` and `get_catipfs` both
return the not-found error and leave the world as it was; in particular
`get_catipfs` makes no fetch. -/
theorem absent_key_not_found (w : World) (k : String) (h : w.ledger k = (none, none)) :
    get w [k] = (("", some ("Asset not found: " ++ k)), w) ∧
      get_catipfs w [k] = (("", some ("Asset not found: " ++ k)), w) := by
  simp [get, get_catipfs, GetState, h]

theorem absent_key_not_found_witness :
    get demoWorld ["doc9"] = (("", some "Asset not found: doc9"), demoWorld) ∧
      get_catipfs demoWorld ["doc9"] = (("", some "Asset not found: doc9"), demoWorld) :=
  absent_key_not_found demoWorld "doc9" rfl

/-- Claim C2, counterexample: the sender `al|ice` contains the delimiter.  The
upload of the file `report.txt` succeeds with `Qm123` and ledger writes
succeed, yet `set_addipfs` uploads the third field `bob`, fails, and leaves
the entry for `doc2` absent. -/
theorem set_addipfs_delimiter_in_sender :
    (AddIpfs demoWorld "ipfs0" "5001" "report.txt").1 = ("Qm123", none) ∧
      demoWorld.putErr "doc2" ("al|ice" ++ "|" ++ "bob" ++ "|" ++ "report.txt" ++ "|" ++ "Qm123")
        = none ∧
      (set_addipfs demoWorld ["doc2", "al|ice" ++ "|" ++ "bob" ++ "|" ++ "report.txt"]).1
        = ("", some ipfsFailed) ∧
      (set_addipfs demoWorld ["doc2", "al|ice" ++ "|" ++ "bob" ++ "|" ++ "report.txt"]).1
        ≠ ("doc2", none) ∧
      (set_addipfs demoWorld ["doc2", "al|ice" ++ "|" ++ "bob" ++ "|" ++ "report.txt"]).2.ledger
        "doc2" = (none, none) ∧
      (set_addipfs demoWorld ["doc2", "al|ice" ++ "|" ++ "bob" ++ "|" ++ "report.txt"]).2.calls
        = [Call.Open "bob"] := by
  decide

/-- Claim C2, amended: when sender, receiver and filename contain no `|`, the
upload of the file named filename succeeds with hash `H` and the ledger write
succeeds, `set_addipfs [k, sender|receiver|filename]` returns `k`, leaves the
entry for `k` equal to `sender|receiver|filename|H` and leaves every other
ledger key unchanged. -/
theorem set_addipfs_commits (w : World) (k sender receiver filename H : String)
    (hs : '|' ∉ sender.data) (hr : '|' ∉ receiver.data) (hf : '|' ∉ filename.data)
    (hup : (AddIpfs w "ipfs0" "5001" filename).1 = (H, none))
    (hput : w.putErr k (sender ++ "|" ++ receiver ++ "|" ++ filename ++ "|" ++ H) = none) :
    (set_addipfs w [k, sender ++ "|" ++ receiver ++ "|" ++ filename]).1 = (k, none) ∧
      (set_addipfs w [k, sender ++ "|" ++ receiver ++ "|" ++ filename]).2.ledger k
        = (some (sender ++ "|" ++ receiver ++ "|" ++ filename ++ "|" ++ H), none) ∧
      ∀ k2, k2 ≠ k →
        (set_addipfs w [k, sender ++ "|" ++ receiver ++ "|" ++ filename]).2.ledger k2
          = w.ledger k2 := by
  have h3 : (Split (sender ++ "|" ++ receiver ++ "|" ++ filename) '|').getD 2 "" = filename := by
    rw [Split_three sender receiver filename hs hr hf]; rfl
  have hup2 : (AddIpfs w "ipfs0" "5001"
      ((Split (sender ++ "|" ++ receiver ++ "|" ++ filename) '|').getD 2 "")).1 = (H, none) := by
    rw [h3]; exact hup
  have hfr := AddIpfs_frame w "ipfs0" "5001" filename
  rw [set_addipfs_ok w k _ H hup2 hput, h3, ledger_after_put _ _ _ (by rw [hfr.2.1]; exact hput) (append_sep_ne_empty _ _)]
  refine ⟨rfl, by simp, ?_⟩
  intro k2 hk2
  simp [hk2, hfr.1]

theorem set_addipfs_commits_witness :
    (set_addipfs demoWorld ["doc2", "alice" ++ "|" ++ "bob" ++ "|" ++ "report.txt"]).1
        = ("doc2", none) ∧
      (set_addipfs demoWorld ["doc2", "alice" ++ "|" ++ "bob" ++ "|" ++ "report.txt"]).2.ledger
        "doc2" = (some ("alice" ++ "|" ++ "bob" ++ "|" ++ "report.txt" ++ "|" ++ "Qm123"), none) ∧
      ∀ k2, k2 ≠ "doc2" →
        (set_addipfs demoWorld
          ["doc2", "alice" ++ "|" ++ "bob" ++ "|" ++ "report.txt"]).2.ledger k2
          = demoWorld.ledger k2 :=
  set_addipfs_commits demoWorld "doc2" "alice" "bob" "report.txt" "Qm123"
    (by decide) (by decide) (by decide) (by decide) (by decide)

/-- Claim C3: for sender, receiver, filename and hash `H` without `|`, after a
successful `set_addipfs [k, sender|receiver|filename]` whose upload returned
`H`, `get_catipfs [k]` on the resulting ledger makes exactly one call, the
fetch of `H`, and when that fetch succeeds it returns `H` itself, not the
fetched content. -/
theorem set_addipfs_then_get_catipfs (w : World) (k sender receiver filename H : String)
    (hs : '|' ∉ sender.data) (hr : '|' ∉ receiver.data) (hf : '|' ∉ filename.data)
    (hH : '|' ∉ H.data)
    (hup : (AddIpfs w "ipfs0" "5001" filename).1 = (H, none))
    (hok : (set_addipfs w [k, sender ++ "|" ++ receiver ++ "|" ++ filename]).1.2 = none)
    (w2 : World)
    (hw2 : w2.ledger
      = (set_addipfs w [k, sender ++ "|" ++ receiver ++ "|" ++ filename]).2.ledger) :
    (get_catipfs w2 [k]).2.calls = w2.calls ++ [Call.Cat "ipfs0:5001" H] ∧
      ∀ content, w2.shellCat "ipfs0:5001" H = .ok content →
        (get_catipfs w2 [k]).1 = (H, none) := by
  have h3 : (Split (sender ++ "|" ++ receiver ++ "|" ++ filename) '|').getD 2 "" = filename := by
    rw [Split_three sender receiver filename hs hr hf]; rfl
  have hup2 : (AddIpfs w "ipfs0" "5001"
      ((Split (sender ++ "|" ++ receiver ++ "|" ++ filename) '|').getD 2 "")).1 = (H, none) := by
    rw [h3]; exact hup
  have hput := set_addipfs_success w k _ H hup2 hok
  have hfr := AddIpfs_frame w "ipfs0" "5001" filename
  have hl : w2.ledger k
      = (some (sender ++ "|" ++ receiver ++ "|" ++ filename ++ "|" ++ H), none) := by
    rw [hw2, set_addipfs_ok w k _ H hup2 hput, h3,
      ledger_after_put _ _ _ (by rw [hfr.2.1]; exact hput) (append_sep_ne_empty _ _)]
    simp
  have h4 : (Split (sender ++ "|" ++ receiver ++ "|" ++ filename ++ "|" ++ H) '|').getD 3 ""
      = H := by
    rw [Split_append_sep, Split_three sender receiver filename hs hr hf, Split_of_not_mem _ hH]
    rfl
  rw [get_catipfs_eq w2 k _ hl, h4]
  constructor
  · cases w2.shellCat "ipfs0:5001" H <;> rfl
  · intro content hc
    rw [hc]

theorem set_addipfs_then_get_catipfs_witness :
    (get_catipfs (set_addipfs demoWorld ["doc2", "alice" ++ "|" ++ "bob" ++ "|" ++ "report.txt"]).2
        ["doc2"]).2.calls
      = (set_addipfs demoWorld ["doc2", "alice" ++ "|" ++ "bob" ++ "|" ++ "report.txt"]).2.calls
        ++ [Call.Cat "ipfs0:5001" "Qm123"] ∧
      (get_catipfs (set_addipfs demoWorld ["doc2", "alice" ++ "|" ++ "bob" ++ "|" ++ "report.txt"]).2
        ["doc2"]).1 = ("Qm123", none) :=
  have h := set_addipfs_then_get_catipfs demoWorld "doc2" "alice" "bob" "report.txt" "Qm123"
    (by decide) (by decide) (by decide) (by decide) (by decide) (by decide)
    (set_addipfs demoWorld ["doc2", "alice" ++ "|" ++ "bob" ++ "|" ++ "report.txt"]).2 rfl
  ⟨h.1, h.2 "abc" rfl⟩

/-- Claim C4: when the upload in `set_addipfs` fails (the file cannot be read
or the store reports an error), `set_addipfs` returns the IPFS failure error
and writes nothing: the whole ledger is as before and no `PutState` call is
made. -/
theorem set_addipfs_upload_failure (w : World) (key value : String)
    (hup : (AddIpfs w "ipfs0" "5001" ((Split value '|').getD 2 "")).1.2 ≠ none) :
    (set_addipfs w [key, value]).1 = ("", some ipfsFailed) ∧
      (set_addipfs w [key, value]).2.ledger = w.ledger ∧
      ∀ k v, Call.PutState k v ∈ (set_addipfs w [key, value]).2.calls →
        Call.PutState k v ∈ w.calls := by
  rw [set_addipfs_upload_err w key value hup]
  obtain ⟨hl, _, extra, hc, hx⟩ :=
    AddIpfs_frame w "ipfs0" "5001" ((Split value '|').getD 2 "")
  refine ⟨rfl, hl, ?_⟩
  intro k v hmem
  simp only at hmem
  rw [hc, List.mem_append] at hmem
  rcases hmem with hmem | hmem
  · exact hmem
  · exact absurd hmem (hx k v)

theorem set_addipfs_upload_failure_witness :
    (set_addipfs { demoWorld with ledger := fun _ => (some "old", none) }
        ["doc3", "alice|bob|missing.txt"]).1 = ("", some ipfsFailed) ∧
      (set_addipfs { demoWorld with ledger := fun _ => (some "old", none) }
        ["doc3", "alice|bob|missing.txt"]).2.ledger = (fun _ => (some "old", none)) ∧
      ∀ k v, Call.PutState k v ∈
        (set_addipfs { demoWorld with ledger := fun _ => (some "old", none) }
          ["doc3", "alice|bob|missing.txt"]).2.calls →
        Call.PutState k v ∈ ([] : List Call) :=
  set_addipfs_upload_failure { demoWorld with ledger := fun _ => (some "old", none) }
    "doc3" "alice|bob|missing.txt" (by decide)

/-- Claim C7, failing input: for the unsupported function name `delete` the
method `Invoke` does not return an error response.  Its error variable is
still nil when `err.Error()` is called, so the call panics; the world is
unchanged. -/
theorem Invoke_unsupported_panics :
    (Invoke { demoWorld with args := ["delete", "doc1"] }).1 = Outcome.panic nilDeref ∧
      (∀ r : Response,
        (Invoke { demoWorld with args := ["delete", "doc1"] }).1 ≠ Outcome.ret r) ∧
      (Invoke { demoWorld with args := ["delete", "doc1"] }).2.ledger = demoWorld.ledger ∧
      (Invoke { demoWorld with args := ["delete", "doc1"] }).2.calls = [] := by
  have h1 : (Invoke { demoWorld with args := ["delete", "doc1"] }).1
      = Outcome.panic nilDeref := by decide
  refine ⟨h1, ?_, rfl, rfl⟩
  intro r hr
  rw [h1] at hr
  cases hr

/-- Claim C8, counterexample: the composite value `alice|bob|report.txt|extra`
has four fields.  The successful `set_addipfs` stores all four followed by
the hash, not the first three followed by the hash, and the fourth field of
the stored value is `extra`, not the hash `Qm123`. -/
theorem set_addipfs_keeps_trailing_field :
    (AddIpfs demoWorld "ipfs0" "5001" "report.txt").1 = ("Qm123", none) ∧
      (set_addipfs demoWorld ["doc2", "alice|bob|report.txt|extra"]).1 = ("doc2", none) ∧
      (set_addipfs demoWorld ["doc2", "alice|bob|report.txt|extra"]).2.ledger "doc2"
        = (some "alice|bob|report.txt|extra|Qm123", none) ∧
      (set_addipfs demoWorld ["doc2", "alice|bob|report.txt|extra"]).2.ledger "doc2"
        ≠ (some ("alice" ++ "|" ++ "bob" ++ "|" ++ "report.txt" ++ "|" ++ "Qm123"), none) ∧
      (Split "alice|bob|report.txt|extra|Qm123" '|').getD 3 "" = "extra" ∧
      (Split "alice|bob|report.txt|extra|Qm123" '|').getD 3 "" ≠ "Qm123" := by
  decide

/-- Claim C8, amended: a successful `set_addipfs` whose upload returned `H`
stores under the key the whole composite value followed by `|` and `H`.  No
field is discarded: splitting the stored value on `|` yields all fields of
the composite value followed by the fields of `H`, so `H` is the fourth field
when the composite value has exactly three fields and `H` contains no `|`. -/
theorem set_addipfs_appends_hash (w : World) (key value H : String)
    (hup : (AddIpfs w "ipfs0" "5001" ((Split value '|').getD 2 "")).1 = (H, none))
    (hok : (set_addipfs w [key, value]).1.2 = none) :
    (set_addipfs w [key, value]).2.ledger key = (some (value ++ "|" ++ H), none) ∧
      Split (value ++ "|" ++ H) '|' = Split value '|' ++ Split H '|' ∧
      ((Split value '|').length = 3 → '|' ∉ H.data →
        (Split (value ++ "|" ++ H) '|').getD 3 "" = H) := by
  have hput := set_addipfs_success w key value H hup hok
  have hfr := AddIpfs_frame w "ipfs0" "5001" ((Split value '|').getD 2 "")
  refine ⟨?_, Split_append_sep value H, ?_⟩
  · rw [set_addipfs_ok w key value H hup hput,
      ledger_after_put _ _ _ (by rw [hfr.2.1]; exact hput) (append_sep_ne_empty _ _)]
    simp
  · intro hlen hH
    rw [Split_append_sep, Split_of_not_mem _ hH]
    match hv : Split value '|', hlen with
    | [a, b, c], _ => rfl

theorem set_addipfs_appends_hash_witness :
    (set_addipfs demoWorld ["doc2", "alice|bob|report.txt"]).2.ledger "doc2"
        = (some ("alice|bob|report.txt" ++ "|" ++ "Qm123"), none) ∧
      Split ("alice|bob|report.txt" ++ "|" ++ "Qm123") '|'
        = Split "alice|bob|report.txt" '|' ++ Split "Qm123" '|' ∧
      (Split ("alice|bob|report.txt" ++ "|" ++ "Qm123") '|').getD 3 "" = "Qm123" :=
  have h := set_addipfs_appends_hash demoWorld "doc2" "alice|bob|report.txt" "Qm123"
    (by decide) (by decide)
  ⟨h.1, h.2.1, h.2.2 (by decide) (by decide)⟩

/-- Claim C9: for a key whose ledger value exists, `get_catipfs` raises no
argument or decode error.  It makes exactly one call, the fetch of the fourth
field of the stored value split on `|`; it returns that field when the fetch
succeeds and the IPFS failure error when the fetch fails; and the field is the
empty string whenever the stored value has fewer than four fields. -/
theorem get_catipfs_fetches_fourth_field (w : World) (key value : String)
    (h : w.ledger key = (some value, none)) :
    (get_catipfs w [key]).2.calls
        = w.calls ++ [Call.Cat "ipfs0:5001" ((Split value '|').getD 3 "")] ∧
      (∀ content, w.shellCat "ipfs0:5001" ((Split value '|').getD 3 "") = .ok content →
        (get_catipfs w [key]).1 = ((Split value '|').getD 3 "", none)) ∧
      (∀ e, w.shellCat "ipfs0:5001" ((Split value '|').getD 3 "") = .error e →
        (get_catipfs w [key]).1 = ("", some ipfsFailed)) ∧
      ((Split value '|').length < 4 → (Split value '|').getD 3 "" = "") := by
  rw [get_catipfs_eq w key value h]
  refine ⟨?_, ?_, ?_, ?_⟩
  · cases w.shellCat "ipfs0:5001" ((Split value '|').getD 3 "") <;> rfl
  · intro content hc
    rw [hc]
  · intro e he
    rw [he]
  · intro hlen
    exact getD_of_length_le _ _ _ (by omega)

theorem get_catipfs_fetches_fourth_field_witness :
    (get_catipfs { demoWorld with ledger := fun _ => (some "alice|bob|report.txt", none) }
        ["doc1"]).2.calls = [] ++ [Call.Cat "ipfs0:5001" ""] ∧
      (get_catipfs { demoWorld with ledger := fun _ => (some "alice|bob|report.txt", none) }
        ["doc1"]).1 = ("", some ipfsFailed) ∧
      (Split "alice|bob|report.txt" '|').getD 3 "" = "" :=
  have h := get_catipfs_fetches_fourth_field
    { demoWorld with ledger := fun _ => (some "alice|bob|report.txt", none) }
    "doc1" "alice|bob|report.txt" rfl
  ⟨h.1, h.2.2.1 "cat: invalid path" rfl, h.2.2.2 (by decide)⟩

/-- Claim C10, counterexample: the value is empty.  `Init` with arguments
`[doc1, ""]` on a ledger that accepts the write returns success, but the
write leaves no entry for `doc1`, so the following `get [doc1]` returns the
not-found error instead of the value. -/
theorem Init_empty_value_leaves_no_entry :
    ({ demoWorld with args := ["doc1", ""] } : World).putErr "doc1" "" = none ∧
      (Init { demoWorld with args := ["doc1", ""] }).1 = shim.Success none ∧
      (Init { demoWorld with args := ["doc1", ""] }).2.ledger "doc1" = (none, none) ∧
      (Init { demoWorld with args := ["doc1", ""] }).2.ledger "doc1" ≠ (some "", none) ∧
      (get (Init { demoWorld with args := ["doc1", ""] }).2 ["doc1"]).1
        = ("", some "Asset not found: doc1") ∧
      (get (Init { demoWorld with args := ["doc1", ""] }).2 ["doc1"]).1 ≠ ("", none) := by
  decide

/-- Claim C10, amended: with exactly two arguments `[k, v]` and a ledger whose
write succeeds, `Init` returns success and, when `v` is not empty, leaves the
entry for `k` equal to `v`, so a following `get [k]` returns `v`; with any
other number of arguments `Init` returns an error and the world is as
before. -/
theorem Init_writes_initial_record (w : World) :
    (∀ k v, w.args = [k, v] → w.putErr k v = none →
      (Init w).1 = shim.Success none ∧
      (v ≠ "" → (Init w).2.ledger k = (some v, none) ∧
        ∀ w2 : World, w2.ledger = (Init w).2.ledger → (get w2 [k]).1 = (v, none))) ∧
    (w.args.length ≠ 2 →
      (Init w).1 = shim.Error "Incorrect arguments. Expecting a key and a value" ∧
      (Init w).2 = w) := by
  constructor
  · intro k v hargs hput
    have hI : Init w = (shim.Success none, (PutState w k v).2) := by
      simp [Init, GetStringArgs, hargs, PutState_ok w k v hput]
    refine ⟨by rw [hI], ?_⟩
    intro hv
    have hl : (Init w).2.ledger k = (some v, none) := by
      rw [hI, ledger_after_put w k v hput hv]
      simp
    refine ⟨hl, ?_⟩
    intro w2 hw2
    rw [get_of_entry w2 k v (by rw [hw2]; exact hl)]
  · intro hlen
    unfold Init GetStringArgs
    split
    · rename_i heq
      rw [heq] at hlen
      simp at hlen
    · exact ⟨rfl, rfl⟩

theorem Init_writes_initial_record_witness :
    ((Init { demoWorld with args := ["doc1", "hello"] }).1 = shim.Success none ∧
      (Init { demoWorld with args := ["doc1", "hello"] }).2.ledger "doc1"
        = (some "hello", none) ∧
      (get (Init { demoWorld with args := ["doc1", "hello"] }).2 ["doc1"]).1
        = ("hello", none)) ∧
    ((Init { demoWorld with args := ["doc1"] }).1
        = shim.Error "Incorrect arguments. Expecting a key and a value" ∧
      (Init { demoWorld with args := ["doc1"] }).2 = { demoWorld with args := ["doc1"] }) :=
  have h := (Init_writes_initial_record { demoWorld with args := ["doc1", "hello"] }).1
    "doc1" "hello" rfl rfl
  have h2 := h.2 (by decide)
  ⟨⟨h.1, h2.1, h2.2 _ rfl⟩,
    (Init_writes_initial_record { demoWorld with args := ["doc1"] }).2 (by decide)⟩

end Sacc
